import Mathlib

/-!
Verification of the memo-app audio-processing pipeline.

Shallow embedding of the relevant code of the repository:
  * backend/api/services/audio_service.py        (AudioProcessor)
  * backend/api/services/background_transcription_service.py
  * backend/api/services/mobile_audio_analytics.py
  * backend/api/services/meeting_service.py      (finalize_meeting_recording)
  * backend/api/services/s3_service.py           (upload key computation)

Python floats that hold timestamps are modelled as rationals (ℚ); Python
dicts as association lists with unique keys; fallible operations as
`Option`/`Except`.
-/

namespace MemoApp

/-- A timestamp value as it may appear in the model's JSON output for a
segment's `start`/`end` field.  `AudioProcessor.timestamp_to_seconds`
accepts a plain number (already seconds), an `"MM:SS.mmm"` string
(two colon-separated parts) or an `"HH:MM:SS.mmm"` string (three parts);
the numeric content of each part is represented by a rational. -/
inductive Timestamp where
  | secs (q : ℚ)
  | mmss (m s : ℚ)
  | hhmmss (h m s : ℚ)
  deriving Repr, DecidableEq

/-- `AudioProcessor.timestamp_to_seconds` (audio_service.py:620-637). -/
def timestamp_to_seconds : Timestamp → ℚ
  | .secs q => q
  | .mmss m s => m * 60 + s
  | .hhmmss h m s => h * 3600 + m * 60 + s

/-- One raw segment as delivered for a single chunk by
`AudioProcessor.safe_extract_json`: `start`/`end` timestamps (chunk
relative), the text and the speaker label.  The Python `end` key is
called `stop` here because `end` is reserved in Lean. -/
structure RawSegment where
  start : Timestamp
  stop : Timestamp
  text : String
  speaker : String
  deriving Repr, DecidableEq

/-- A merged segment: `start`/`end` have been converted to seconds and
offset to recording-relative time (audio_service.py:654-661). -/
structure Segment where
  start : ℚ
  stop : ℚ
  text : String
  speaker : String
  deriving Repr, DecidableEq

/-- The body of the per-entry loop of
`AudioProcessor.merge_json_with_offset` (audio_service.py:652-661):
copy the entry and replace `start`/`end` by seconds plus the chunk
offset.  All other fields of the entry are carried over by
`entry.copy()`. -/
def offsetSegment (off : ℚ) (e : RawSegment) : Segment :=
  { start := timestamp_to_seconds e.start + off
    stop := timestamp_to_seconds e.stop + off
    text := e.text
    speaker := e.speaker }

/-- `AudioProcessor.merge_json_with_offset` (audio_service.py:645-666).
`data` is the dict mapping chunk index to that chunk's raw segment
list; the items are sorted by chunk index (`sorted(data.items(), key=
lambda x: x[0])`), then each chunk's entries get the additive offset
`i * time_offset` and everything is concatenated.  No sorting of the
segments themselves and no validation of `end > start` is performed. -/
def merge_json_with_offset (data : List (ℕ × List RawSegment)) (time_offset : ℚ) :
    List Segment :=
  (data.insertionSort (fun a b => a.1 ≤ b.1)).flatMap
    (fun p => p.2.map (offsetSegment ((p.1 : ℚ) * time_offset)))

/-- `AudioProcessor.transcribe_chunk` (audio_service.py:821-833): on any
failure after the per-chunk retries are exhausted it catches the
exception and returns an empty list for the chunk instead of raising
(`return idx, []`).  A chunk whose transcription succeeded yields the
list produced by `safe_extract_json` (which is never empty, see
`safe_extract_json` below).  The outcome of the external call is
modelled by an `Option`: `none` means the chunk failed. -/
def transcribe_chunk (outcome : Option (List RawSegment)) : List RawSegment :=
  outcome.getD []

/-- `AudioProcessor.transcribe_chunks` (audio_service.py:1064-1128),
after the thread pool has completed: `results` maps every chunk index
to `transcribe_chunk`'s result (failed chunks contribute `[]`; the
re-raise branch for a failing single-chunk future is unreachable
because `transcribe_chunk` swallows its own exceptions).  If `results`
is empty (no chunks at all) an exception is raised; if no chunk has a
non-empty result the function logs and returns an empty transcription;
otherwise the non-empty chunks are merged with the hard-coded offset
`300` ("Using 300 seconds as default offset", audio_service.py:1110). -/
def transcribe_chunks (chunkOutcomes : List (ℕ × Option (List RawSegment))) :
    Except String (List Segment) :=
  let results := chunkOutcomes.map (fun p => (p.1, transcribe_chunk p.2))
  if results.isEmpty then
    .error "All chunks failed to process. No transcription data available."
  else
    let valid := results.filter (fun p => !p.2.isEmpty)
    if valid.isEmpty then
      .ok []
    else
      .ok (merge_json_with_offset valid 300)

/-- `AudioProcessor.split_audio` (audio_service.py:354-434) slices the
audio into windows of `AUDIO_OFFSET_CHUNK` seconds (an environment
variable, default 300): chunk `i` covers the recording starting at
`i * chunkDuration` seconds.  Hence the true recording-relative time of
a chunk-relative timestamp `t` inside chunk `i` is: -/
def chunk_recording_time (chunkDuration : ℚ) (i : ℕ) (t : ℚ) : ℚ :=
  (i : ℚ) * chunkDuration + t

/-! ### Helper lemmas about the merge -/

/-- Segments of a chunk that appears in the merge input contribute their
offset image to the merge output. -/
lemma mem_merge_json_with_offset {data : List (ℕ × List RawSegment)} {off : ℚ}
    {i : ℕ} {segs : List RawSegment} {s : RawSegment}
    (hp : (i, segs) ∈ data) (hs : s ∈ segs) :
    offsetSegment ((i : ℚ) * off) s ∈ merge_json_with_offset data off := by
  unfold merge_json_with_offset
  rw [List.mem_flatMap]
  exact ⟨(i, segs), (List.perm_insertionSort _ data).mem_iff.mpr hp,
    List.mem_map_of_mem _ hs⟩

/-- Every element of the merge output is the offset image of a raw
segment of some input chunk. -/
lemma merge_json_with_offset_mem {data : List (ℕ × List RawSegment)} {off : ℚ}
    {m : Segment} (hm : m ∈ merge_json_with_offset data off) :
    ∃ p ∈ data, ∃ s ∈ p.2, m = offsetSegment ((p.1 : ℚ) * off) s := by
  unfold merge_json_with_offset at hm
  rw [List.mem_flatMap] at hm
  obtain ⟨p, hp, hmem⟩ := hm
  obtain ⟨s, hs, rfl⟩ := List.mem_map.mp hmem
  exact ⟨p, (List.perm_insertionSort _ data).mem_iff.mp hp, s, hs, rfl⟩

/-- Core sortedness lemma for the merge: if the chunk indices are
distinct, each chunk's raw segments are sorted by (converted) start
time, and every raw start time lies between `0` and the offset, then
the merged output is sorted by `start`. -/
lemma merge_json_with_offset_sorted {data : List (ℕ × List RawSegment)} {off : ℚ}
    (hoff : 0 ≤ off)
    (hnodup : (data.map Prod.fst).Nodup)
    (hsorted : ∀ p ∈ data,
      p.2.Pairwise (fun a b => timestamp_to_seconds a.start ≤ timestamp_to_seconds b.start))
    (hbound : ∀ p ∈ data, ∀ s ∈ p.2,
      0 ≤ timestamp_to_seconds s.start ∧ timestamp_to_seconds s.start ≤ off) :
    (merge_json_with_offset data off).Pairwise (fun a b => a.start ≤ b.start) := by
  unfold merge_json_with_offset
  set L := data.insertionSort (fun a b => a.1 ≤ b.1) with hL
  have hperm : L.Perm data := List.perm_insertionSort _ data
  -- the chunk list is sorted by index, and the indices are distinct
  haveI : IsTotal (ℕ × List RawSegment) (fun a b => a.1 ≤ b.1) :=
    ⟨fun a b => Nat.le_total a.1 b.1⟩
  haveI : IsTrans (ℕ × List RawSegment) (fun a b => a.1 ≤ b.1) :=
    ⟨fun _ _ _ h h' => Nat.le_trans h h'⟩
  have hLsorted : L.Pairwise (fun a b => a.1 ≤ b.1) :=
    List.sorted_insertionSort (fun (a b : ℕ × List RawSegment) => a.1 ≤ b.1) data
  have hLnodup : (L.map Prod.fst).Nodup := (hperm.map Prod.fst).symm.nodup_iff.mp hnodup
  have hLne : L.Pairwise (fun a b => a.1 ≠ b.1) := List.pairwise_map.mp hLnodup
  have hLlt : L.Pairwise (fun a b => a.1 < b.1) :=
    (hLsorted.and hLne).imp (fun h => Nat.lt_of_le_of_ne h.1 h.2)
  rw [List.flatMap_def, List.pairwise_flatten]
  constructor
  · intro l hl
    obtain ⟨p, hpL, rfl⟩ := List.mem_map.mp hl
    have hpdata : p ∈ data := hperm.mem_iff.mp hpL
    rw [List.pairwise_map]
    exact (hsorted p hpdata).imp (fun h => by
      simp only [offsetSegment]
      exact add_le_add_right h _)
  · rw [List.pairwise_map]
    refine hLlt.imp_of_mem ?_
    intro p q hpL hqL hlt x hx y hy
    obtain ⟨sx, hsx, rfl⟩ := List.mem_map.mp hx
    obtain ⟨sy, hsy, rfl⟩ := List.mem_map.mp hy
    have hpdata : p ∈ data := hperm.mem_iff.mp hpL
    have hqdata : q ∈ data := hperm.mem_iff.mp hqL
    have hx2 := (hbound p hpdata sx hsx).2
    have hy1 := (hbound q hqdata sy hsy).1
    simp only [offsetSegment]
    have hsucc : ((p.1 : ℚ) + 1) * off ≤ (q.1 : ℚ) * off := by
      have : ((p.1 : ℚ) + 1) ≤ (q.1 : ℚ) := by exact_mod_cast Nat.succ_le_of_lt hlt
      exact mul_le_mul_of_nonneg_right this hoff
    calc timestamp_to_seconds sx.start + (p.1 : ℚ) * off
        ≤ off + (p.1 : ℚ) * off := by linarith
      _ = ((p.1 : ℚ) + 1) * off := by ring
      _ ≤ (q.1 : ℚ) * off := hsucc
      _ ≤ timestamp_to_seconds sy.start + (q.1 : ℚ) * off := by linarith

/-! ### C1 -/

/-- Concrete raw segments used in counterexamples: the model returned
chunk-relative segments out of order (`segA` starts at 10 s, `segB` at
0 s) and one segment with `end = start` (`segC`).  `safe_extract_json`
accepts all of them (it checks key presence only, see below). -/
def segA : RawSegment := ⟨.secs 10, .secs 11, "b", "speaker1"⟩

def segB : RawSegment := ⟨.secs 0, .secs 1, "a", "speaker1"⟩

def segC : RawSegment := ⟨.secs 5, .secs 5, "c", "speaker1"⟩

/-- C1, counterexample.  A single-chunk recording whose model response
lists segments out of order (and one zero-length segment) is returned
by `transcribe_chunks` exactly as the model produced it: the resulting
transcript is neither sorted by `start` nor does every segment satisfy
`end > start`.  Nothing in `merge_json_with_offset`,
`transcribe_chunks` or their callers sorts segments or validates
`end > start`. -/
theorem transcript_sorted_counterexample :
    transcribe_chunks [(0, some [segA, segB, segC])]
        = .ok [⟨10, 11, "b", "speaker1"⟩, ⟨0, 1, "a", "speaker1"⟩, ⟨5, 5, "c", "speaker1"⟩]
    ∧ ¬ (([⟨10, 11, "b", "speaker1"⟩, ⟨0, 1, "a", "speaker1"⟩,
          (⟨5, 5, "c", "speaker1"⟩ : Segment)]).Pairwise (fun a b => a.start ≤ b.start))
    ∧ ¬ (∀ s ∈ [⟨10, 11, "b", "speaker1"⟩, ⟨0, 1, "a", "speaker1"⟩,
          (⟨5, 5, "c", "speaker1"⟩ : Segment)], s.start < s.stop) := by
  refine ⟨?_, ?_, ?_⟩
  · simp [transcribe_chunks, transcribe_chunk, merge_json_with_offset, List.insertionSort,
      offsetSegment, timestamp_to_seconds, segA, segB, segC]
  · intro h
    rcases h with _ | ⟨h1, _⟩
    have := h1 ⟨0, 1, "a", "speaker1"⟩ (by simp)
    norm_num at this
  · intro h
    have := h ⟨5, 5, "c", "speaker1"⟩ (by simp)
    norm_num at this

/-- C1, amended.  The transcript returned by `transcribe_chunks` is
sorted by `start` ascending with `end > start` for every segment
*provided* the raw per-chunk model output already satisfies this
chunk-locally: each chunk's segments sorted by start, all raw start
times within `[0, 300]` (the merge offset), and `end > start` raw.
The merge only offsets by chunk index and concatenates; it performs no
sorting and no validation of its own. -/
theorem transcript_sorted_of_chunkwise_sorted
    (outcomes : List (ℕ × Option (List RawSegment)))
    (hnodup : (outcomes.map Prod.fst).Nodup)
    (hsorted : ∀ p ∈ outcomes, ∀ segs, p.2 = some segs →
      segs.Pairwise (fun a b => timestamp_to_seconds a.start ≤ timestamp_to_seconds b.start))
    (hbound : ∀ p ∈ outcomes, ∀ segs, p.2 = some segs → ∀ s ∈ segs,
      0 ≤ timestamp_to_seconds s.start ∧ timestamp_to_seconds s.start ≤ 300)
    (hvalid : ∀ p ∈ outcomes, ∀ segs, p.2 = some segs → ∀ s ∈ segs,
      timestamp_to_seconds s.start < timestamp_to_seconds s.stop) :
    ∀ l, transcribe_chunks outcomes = .ok l →
      l.Pairwise (fun a b => a.start ≤ b.start) ∧ ∀ m ∈ l, m.start < m.stop := by
  intro l hl
  unfold transcribe_chunks at hl
  set results := outcomes.map (fun p => (p.1, transcribe_chunk p.2)) with hres
  by_cases hempty : results.isEmpty
  · simp [hempty] at hl
  · simp only [hempty, if_false] at hl
    set valid := results.filter (fun p => !p.2.isEmpty) with hvaliddef
    -- membership in `valid` comes from a successful, non-empty chunk outcome
    have hvalid_mem : ∀ q ∈ valid, ∃ p ∈ outcomes, p.1 = q.1 ∧ p.2 = some q.2 := by
      intro q hq
      have hq1 := List.mem_of_mem_filter hq
      have hq2 : !q.2.isEmpty := by
        have := List.of_mem_filter hq
        simpa using this
      rw [hres] at hq1
      obtain ⟨p, hp, hpq⟩ := List.mem_map.mp hq1
      refine ⟨p, hp, ?_, ?_⟩
      · rw [← hpq]
      · rw [← hpq]
        simp only
        cases hp2 : p.2 with
        | none =>
            exfalso
            rw [← hpq] at hq2
            simp [transcribe_chunk, hp2] at hq2
        | some segs => simp [transcribe_chunk, hp2]
    by_cases hvempty : valid.isEmpty
    · simp only [hvempty, if_true] at hl
      cases hl
      exact ⟨List.Pairwise.nil, by simp⟩
    · simp only [hvempty, if_false] at hl
      cases hl
      have hnodupv : (valid.map Prod.fst).Nodup := by
        have hsub : valid.Sublist results := List.filter_sublist results
        have : (results.map Prod.fst).Nodup := by
          rw [hres, List.map_map]
          simpa using hnodup
        exact (hsub.map Prod.fst).nodup this
      constructor
      · refine merge_json_with_offset_sorted (by norm_num) hnodupv ?_ ?_
        · intro q hq
          obtain ⟨p, hp, _, hp2⟩ := hvalid_mem q hq
          exact hsorted p hp q.2 hp2
        · intro q hq
          obtain ⟨p, hp, _, hp2⟩ := hvalid_mem q hq
          exact hbound p hp q.2 hp2
      · intro m hm
        obtain ⟨q, hq, s, hs, rfl⟩ := merge_json_with_offset_mem hm
        obtain ⟨p, hp, _, hp2⟩ := hvalid_mem q hq
        have := hvalid p hp q.2 hp2 s hs
        simp only [offsetSegment]
        linarith

/-- Witness for `transcript_sorted_of_chunkwise_sorted` at a concrete
two-chunk input whose chunks are chunk-locally sorted and valid. -/
theorem transcript_sorted_of_chunkwise_sorted_witness :
    ([⟨0, 1, "a", "speaker1"⟩, ⟨300, 301, "a", "speaker1"⟩] : List Segment).Pairwise
        (fun a b => a.start ≤ b.start)
    ∧ ∀ m ∈ ([⟨0, 1, "a", "speaker1"⟩, ⟨300, 301, "a", "speaker1"⟩] : List Segment),
        m.start < m.stop := by
  have h := transcript_sorted_of_chunkwise_sorted [(0, some [segB]), (1, some [segB])]
    (by simp)
    (by
      intro p hp segs hsegs
      simp only [List.mem_cons, List.mem_singleton] at hp
      rcases hp with rfl | rfl | h
      · cases hsegs; simp
      · cases hsegs; simp
      · cases h)
    (by
      intro p hp segs hsegs s hs
      simp only [List.mem_cons, List.mem_singleton] at hp
      rcases hp with rfl | rfl | h
      · cases hsegs
        simp only [List.mem_singleton] at hs
        subst hs
        norm_num [segB, timestamp_to_seconds]
      · cases hsegs
        simp only [List.mem_singleton] at hs
        subst hs
        norm_num [segB, timestamp_to_seconds]
      · cases h)
    (by
      intro p hp segs hsegs s hs
      simp only [List.mem_cons, List.mem_singleton] at hp
      rcases hp with rfl | rfl | h
      · cases hsegs
        simp only [List.mem_singleton] at hs
        subst hs
        norm_num [segB, timestamp_to_seconds]
      · cases hsegs
        simp only [List.mem_singleton] at hs
        subst hs
        norm_num [segB, timestamp_to_seconds]
      · cases h)
  exact h [⟨0, 1, "a", "speaker1"⟩, ⟨300, 301, "a", "speaker1"⟩]
    (by simp [transcribe_chunks, transcribe_chunk, merge_json_with_offset,
      List.insertionSort, List.orderedInsert, offsetSegment, timestamp_to_seconds, segB]
        norm_num)

/-! ### C2 -/

/-- C2, counterexample.  `split_audio` slices the recording into
windows of `AUDIO_OFFSET_CHUNK` seconds (environment variable, default
300), but `transcribe_chunks` merges with the hard-coded offset 300
(audio_service.py:1110) regardless of that configuration.  With
`AUDIO_OFFSET_CHUNK = 60`, a segment at chunk-relative time 0 of chunk
1 truly occurs at 60 s into the recording, yet the merged transcript
places it at 300 s. -/
theorem chunk_offset_counterexample :
    transcribe_chunks [(0, some [segB]), (1, some [segB])]
        = .ok [⟨0, 1, "a", "speaker1"⟩, ⟨300, 301, "a", "speaker1"⟩]
    ∧ chunk_recording_time 60 1 (timestamp_to_seconds segB.start) = 60
    ∧ (300 : ℚ) ≠ 60 := by
  refine ⟨?_, ?_, by norm_num⟩
  · simp [transcribe_chunks, transcribe_chunk, merge_json_with_offset, List.insertionSort,
      List.orderedInsert, offsetSegment, timestamp_to_seconds, segB]
    norm_num
  · norm_num [chunk_recording_time, timestamp_to_seconds, segB]

/-- C2, amended.  Every segment of a successful chunk appears in the
returned transcript with the fixed additive offset `i * 300` seconds
(`i` the chunk index): its recording-relative start equals the
chunk-relative start plus `i * 300`.  This agrees with
`chunk_recording_time` for the configured chunk duration exactly when
that duration is the default 300 s. -/
theorem chunk_offset_is_fixed_300
    (outcomes : List (ℕ × Option (List RawSegment)))
    (i : ℕ) (segs : List RawSegment) (s : RawSegment)
    (hmem : (i, some segs) ∈ outcomes) (hs : s ∈ segs) :
    ∃ l, transcribe_chunks outcomes = .ok l
      ∧ offsetSegment ((i : ℚ) * 300) s ∈ l
      ∧ (offsetSegment ((i : ℚ) * 300) s).start
          = chunk_recording_time 300 i (timestamp_to_seconds s.start) := by
  unfold transcribe_chunks
  set results := outcomes.map (fun p => (p.1, transcribe_chunk p.2)) with hres
  have hmemres : (i, segs) ∈ results := by
    rw [hres]
    exact List.mem_map.mpr ⟨(i, some segs), hmem, rfl⟩
  have hne : ¬ results.isEmpty := by
    intro h
    rw [List.isEmpty_iff] at h
    rw [h] at hmemres
    cases hmemres
  set valid := results.filter (fun p => !p.2.isEmpty) with hvaliddef
  have hmemvalid : (i, segs) ∈ valid := by
    rw [hvaliddef]
    refine List.mem_filter.mpr ⟨hmemres, ?_⟩
    simp only [Bool.not_eq_eq_eq_not, Bool.not_true]
    cases segs with
    | nil => cases hs
    | cons a t => rfl
  have hvne : ¬ valid.isEmpty := by
    intro h
    rw [List.isEmpty_iff] at h
    rw [h] at hmemvalid
    cases hmemvalid
  simp only [hne, if_false, hvne]
  refine ⟨merge_json_with_offset valid 300, rfl, ?_, ?_⟩
  · exact mem_merge_json_with_offset hmemvalid hs
  · simp [offsetSegment, chunk_recording_time, add_comm]

/-- Witness for `chunk_offset_is_fixed_300`: the chunk-1 segment of the
two-chunk input lands at recording-relative start 300. -/
theorem chunk_offset_is_fixed_300_witness :
    ∃ l, transcribe_chunks [(0, some [segB]), (1, some [segB])] = .ok l
      ∧ offsetSegment ((1 : ℕ) * 300 : ℚ) segB ∈ l
      ∧ (offsetSegment ((1 : ℕ) * 300 : ℚ) segB).start
          = chunk_recording_time 300 1 (timestamp_to_seconds segB.start) := by
  exact chunk_offset_is_fixed_300 [(0, some [segB]), (1, some [segB])] 1 [segB] segB
    (by simp) (by simp)

/-! ### C3 -/

/-- C3, counterexample.  When every chunk's transcription fails,
`transcribe_chunk` returns `(idx, [])` for each chunk instead of
raising (audio_service.py:830-833), so `results` is non-empty, no
result is valid, and `transcribe_chunks` logs "No valid chunks to
merge, returning empty transcription" and returns `[]`
(audio_service.py:1105-1107).  No exception is raised and no
`NoAudioDataError` exists anywhere in the repository. -/
theorem all_chunks_failed_counterexample :
    transcribe_chunks [(0, Option.none), (1, Option.none)] = .ok [] := by
  simp [transcribe_chunks, transcribe_chunk]

/-- C3, amended.  If at least one chunk is present and every chunk's
transcription failed, `transcribe_chunks` returns an *empty transcript*
(`.ok []`) without raising; an exception is raised only when there are
no chunks at all.  If at least one chunk succeeds (its segment list is
non-empty, as `safe_extract_json` guarantees), the returned transcript
is non-empty. -/
theorem transcribe_chunks_failure_semantics
    (outcomes : List (ℕ × Option (List RawSegment))) :
    (outcomes ≠ [] → (∀ p ∈ outcomes, transcribe_chunk p.2 = []) →
      transcribe_chunks outcomes = .ok [])
    ∧ (∀ i segs, (i, some segs) ∈ outcomes → segs ≠ [] →
      ∃ l, transcribe_chunks outcomes = .ok l ∧ l ≠ []) := by
  constructor
  · intro hne hall
    unfold transcribe_chunks
    have h1 : ¬ (outcomes.map (fun p => (p.1, transcribe_chunk p.2))).isEmpty := by
      simpa [List.isEmpty_iff] using hne
    simp only [h1, if_false]
    have h2 : (outcomes.map (fun p => (p.1, transcribe_chunk p.2))).filter
        (fun p => !p.2.isEmpty) = [] := by
      rw [List.filter_eq_nil_iff]
      intro q hq
      obtain ⟨p, hp, rfl⟩ := List.mem_map.mp hq
      simp [hall p hp]
    simp [h2]
  · intro i segs hmem hne
    obtain ⟨s, hs⟩ := List.exists_mem_of_ne_nil segs hne
    obtain ⟨l, hl, hmem', _⟩ := chunk_offset_is_fixed_300 outcomes i segs s hmem hs
    exact ⟨l, hl, List.ne_nil_of_mem hmem'⟩

/-- Witness for `transcribe_chunks_failure_semantics`: the all-failed
branch at two failed chunks, and the partial-success branch when chunk
0 failed but chunk 1 succeeded. -/
theorem transcribe_chunks_failure_semantics_witness :
    transcribe_chunks [(0, Option.none), (1, Option.none)] = .ok []
    ∧ ∃ l, transcribe_chunks [(0, Option.none), (1, some [segB])] = .ok l ∧ l ≠ [] := by
  constructor
  · exact (transcribe_chunks_failure_semantics [(0, Option.none), (1, Option.none)]).1
      (by simp) (by intro p hp; simp only [List.mem_cons, List.mem_singleton] at hp
                    rcases hp with rfl | rfl | h
                    · rfl
                    · rfl
                    · cases h)
  · exact (transcribe_chunks_failure_semantics [(0, Option.none), (1, some [segB])]).2
      1 [segB] (by simp) (by simp)

/-! ### C4 -/

/-- A loosely-typed Python value (the payloads stored in the flat
analytics dict). -/
inductive PyLite where
  | str (v : String)
  | num (v : ℚ)
  | boolean (v : Bool)
  | pynone
  deriving Repr, DecidableEq

/-- A Python dict with string keys, as an association list with unique
keys in insertion order; `d.lookup k` is `d.get(k)`. -/
abbrev PyDict := List (String × PyLite)

/-- The `"sentiment_analysis"` sub-object of the parsed Gemini response
in `MobileAudioAnalytics.extract_analytics`
(mobile_audio_analytics.py:100-147).  Each field is `Option`al: the
model may omit it.  A present but non-dict `sentiment_analysis` value
raises inside the `try` and is caught (lines 107-108), leaving the same
defaults as complete absence, so it is modelled as `none` too. -/
structure SentimentBlockInput where
  overall_sentiment : Option String
  sentiment_score : Option ℚ
  emotional_tone : Option String
  tension_level : Option ℚ
  enthusiasm_level : Option ℚ
  deriving Repr, DecidableEq

/-- Lines 95-108 of mobile_audio_analytics.py: sentiment label and
score start at the defaults `("neutral", 5.0)` and are replaced only
when the parsed response carries a `sentiment_analysis` object, each
via `.get(..., default)`. -/
def extract_sentiment (sa : Option SentimentBlockInput) : String × ℚ :=
  match sa with
  | Option.none => ("neutral", 5)
  | some d => (d.overall_sentiment.getD "neutral", d.sentiment_score.getD 5)

/-- The identification and sentiment entries of the flat analytics dict
built by `MobileAudioAnalytics.extract_analytics`
(mobile_audio_analytics.py:111-194).  The dict literal in the source
additionally contains the audio-quality / voice / communication /
conflict / participation / effectiveness / insight metric entries,
each computed by the same `analytics_data.get(block, {}).get(field,
default)` pattern from *other* blocks of the parsed response; they
never touch the sentiment keys and are omitted here because this
development only reasons about the sentiment fields. -/
def mobile_flat_analytics (meeting_id user_email meeting_title meeting_date : String)
    (sa : Option SentimentBlockInput) : PyDict :=
  [("meeting_id", .str meeting_id),
   ("user_email", .str user_email),
   ("meeting_title", .str meeting_title),
   ("meeting_date", .str meeting_date),
   ("sentiment", .str (extract_sentiment sa).1),
   ("sentiment_score", .num (extract_sentiment sa).2),
   ("emotional_tone", .str (match sa with
     | Option.none => "neutral"
     | some d => d.emotional_tone.getD "neutral")),
   ("tension_level", .num (match sa with
     | Option.none => 5
     | some d => d.tension_level.getD 5)),
   ("enthusiasm_level", .num (match sa with
     | Option.none => 5
     | some d => d.enthusiasm_level.getD 5))]

/-- `BackgroundTranscriptionService._extract_flat_meeting_analytics`,
lines 527-537: before saving, if `sentiment` or `sentiment_score` is
missing from the analytics dict it is added with the defaults
`"neutral"` / `5.0` (Python dict assignment of a missing key appends
it). -/
def backfill_sentiment (d : PyDict) : PyDict :=
  let d1 := if (d.lookup "sentiment").isSome then d
            else d ++ [("sentiment", .str "neutral")]
  if (d1.lookup "sentiment_score").isSome then d1
  else d1 ++ [("sentiment_score", .num 5)]

/-- The backfill leaves an existing `sentiment` untouched and fills
`"neutral"` otherwise. -/
lemma backfill_sentiment_lookup_sentiment (d : PyDict) :
    (backfill_sentiment d).lookup "sentiment"
      = some ((d.lookup "sentiment").getD (.str "neutral")) := by
  unfold backfill_sentiment
  cases hd : d.lookup "sentiment" with
  | none =>
      cases hd2 : d.lookup "sentiment_score" with
      | none => simp [hd, hd2, List.lookup_append, List.lookup]
      | some v => simp [hd, hd2, List.lookup_append, List.lookup]
  | some v =>
      cases hd2 : d.lookup "sentiment_score" with
      | none => simp [hd, hd2, List.lookup_append, List.lookup]
      | some w => simp [hd, hd2]

/-- The backfill leaves an existing `sentiment_score` untouched and
fills `5.0` otherwise. -/
lemma backfill_sentiment_lookup_score (d : PyDict) :
    (backfill_sentiment d).lookup "sentiment_score"
      = some ((d.lookup "sentiment_score").getD (.num 5)) := by
  unfold backfill_sentiment
  cases hd : d.lookup "sentiment" with
  | none =>
      cases hd2 : d.lookup "sentiment_score" with
      | none => simp [hd, hd2, List.lookup_append, List.lookup]
      | some v => simp [hd, hd2, List.lookup_append, List.lookup]
  | some v =>
      cases hd2 : d.lookup "sentiment_score" with
      | none => simp [hd, hd2, List.lookup_append, List.lookup]
      | some w => simp [hd, hd2]

/-- C4, confirmed.  The mobile analytics flat output always carries the
`sentiment` and `sentiment_score` keys, with values `"neutral"` / `5.0`
whenever the parsed model response omits them; independently, the
background service's pre-save backfill guarantees both keys on any
analytics dict, filling the same defaults when missing. -/
theorem sentiment_fields_always_present
    (mid mail title date : String) (sa : Option SentimentBlockInput) (d : PyDict) :
    ((mobile_flat_analytics mid mail title date sa).lookup "sentiment"
        = some (.str (extract_sentiment sa).1))
    ∧ ((mobile_flat_analytics mid mail title date sa).lookup "sentiment_score"
        = some (.num (extract_sentiment sa).2))
    ∧ (sa = Option.none → extract_sentiment sa = ("neutral", 5))
    ∧ (∀ e t el, sa = some ⟨Option.none, Option.none, e, t, el⟩ →
        extract_sentiment sa = ("neutral", 5))
    ∧ ((backfill_sentiment d).lookup "sentiment").isSome
    ∧ ((backfill_sentiment d).lookup "sentiment_score").isSome
    ∧ ((d.lookup "sentiment").isNone →
        (backfill_sentiment d).lookup "sentiment" = some (.str "neutral"))
    ∧ ((d.lookup "sentiment_score").isNone →
        (backfill_sentiment d).lookup "sentiment_score" = some (.num 5)) := by
  refine ⟨?_, ?_, ?_, ?_, ?_, ?_, ?_, ?_⟩
  · simp [mobile_flat_analytics, List.lookup]
  · simp [mobile_flat_analytics, List.lookup]
  · rintro rfl; rfl
  · rintro e t el rfl; rfl
  · rw [backfill_sentiment_lookup_sentiment]; rfl
  · rw [backfill_sentiment_lookup_score]; rfl
  · intro hnone
    rw [backfill_sentiment_lookup_sentiment, Option.isNone_iff_eq_none.mp hnone]
    rfl
  · intro hnone
    rw [backfill_sentiment_lookup_score, Option.isNone_iff_eq_none.mp hnone]
    rfl

/-- Witness for `sentiment_fields_always_present` at a parsed response
that omits the sentiment block entirely and an analytics dict missing
both keys. -/
theorem sentiment_fields_always_present_witness :
    ((mobile_flat_analytics "1" "u@x" "t" "d" Option.none).lookup "sentiment"
        = some (.str "neutral"))
    ∧ ((backfill_sentiment [("meeting_id", .str "1")]).lookup "sentiment"
        = some (.str "neutral")) := by
  have h := sentiment_fields_always_present "1" "u@x" "t" "d" Option.none
    [("meeting_id", .str "1")]
  refine ⟨?_, h.2.2.2.2.2.2.1 (by simp [List.lookup])⟩
  have h1 := h.1
  rw [h1, h.2.2.1 rfl]

/-! ### C5 -/

/-- One entry of the JSON array returned by the model for action-items
extraction: either not a dict, or a dict with the five optional string
fields read by `AudioProcessor.extract_action_items`
(audio_service.py:1528-1557).  `none` means the key is absent; the
empty string is a present-but-falsy value (Python truthiness). -/
inductive RawActionItem where
  | notDict
  | item (description owner priority due_date status : Option String)
  deriving Repr, DecidableEq

/-- A cleaned action item as appended to `cleaned_items`
(audio_service.py:1533-1539). -/
structure ActionItem where
  description : String
  owner : Option String
  priority : String
  due_date : Option String
  status : String
  deriving Repr, DecidableEq

/-- Python `str.lower()`: character-wise lowercasing (ASCII case
mapping, which covers all values the validation sets compare
against). -/
def py_lower (s : String) : String :=
  String.mk (s.data.map Char.toLower)

/-- Python `str.strip()`: remove leading and trailing whitespace. -/
def py_strip (s : String) : String :=
  String.mk (((s.data.dropWhile Char.isWhitespace).reverse.dropWhile
    Char.isWhitespace).reverse)

/-- `item.get("owner") if item.get("owner") and item.get("owner")
.strip().lower() not in ["null", "none", ""] else None`
(audio_service.py:1535); identical logic for `due_date` (line 1537). -/
def clean_optional_field (v : Option String) : Option String :=
  match v with
  | some s =>
      if s ≠ "" ∧ ¬ (py_lower (py_strip s) = "null" ∨ py_lower (py_strip s) = "none"
          ∨ py_lower (py_strip s) = "") then some s
      else Option.none
  | Option.none => Option.none

/-- The lowercased-or-defaulted priority value:
`item.get("priority", "medium").lower() if item.get("priority") else
"medium"` (audio_service.py:1536). -/
def priority_norm (p : Option String) : String :=
  match p with
  | some s => if s ≠ "" then py_lower s else "medium"
  | Option.none => "medium"

/-- Priority validation (audio_service.py:1541-1543): values outside
`{high, medium, low}` *after lowercasing* become `"medium"`. -/
def coerce_priority (p : Option String) : String :=
  let v := priority_norm p
  if v = "high" ∨ v = "medium" ∨ v = "low" then v else "medium"

/-- The lowercased-or-defaulted status value (audio_service.py:1538). -/
def status_norm (st : Option String) : String :=
  match st with
  | some s => if s ≠ "" then py_lower s else "pending"
  | Option.none => "pending"

/-- Status validation (audio_service.py:1545-1547): values outside
`{pending, in_progress, completed}` *after lowercasing* become
`"pending"`. -/
def coerce_status (st : Option String) : String :=
  let v := status_norm st
  if v = "pending" ∨ v = "in_progress" ∨ v = "completed" then v else "pending"

/-- The per-entry validation/cleaning of
`AudioProcessor.extract_action_items` (audio_service.py:1529-1552):
entries that are not dicts or lack a `description` key are skipped;
kept entries get stripped description, cleaned owner/due-date and
coerced priority/status. -/
def clean_action_item : RawActionItem → Option ActionItem
  | .notDict => Option.none
  | .item desc owner pri due st =>
      match desc with
      | Option.none => Option.none
      | some d => some
          { description := py_strip d
            owner := clean_optional_field owner
            priority := coerce_priority pri
            due_date := clean_optional_field due
            status := coerce_status st }

/-- The whole cleaning loop over the parsed JSON array. -/
def extract_action_items_clean (items : List RawActionItem) : List ActionItem :=
  items.filterMap clean_action_item

/-- C5, counterexample.  A model entry with `priority: "HIGH"` has a
priority value outside `{high, medium, low}`, yet it is *not* coerced
to `"medium"`: the code lowercases first and keeps `"high"`.  The
claim's coercion rule, read literally, predicts `"medium"` here. -/
theorem action_item_priority_counterexample :
    extract_action_items_clean
        [RawActionItem.item (some "Do X") Option.none (some "HIGH") Option.none Option.none]
      = [⟨"Do X", Option.none, "high", Option.none, "pending"⟩]
    ∧ ¬ ("HIGH" = "high" ∨ "HIGH" = "medium" ∨ "HIGH" = "low")
    ∧ ("high" : String) ≠ "medium" := by
  refine ⟨?_, by decide, by decide⟩
  simp [extract_action_items_clean, clean_action_item, coerce_priority, priority_norm,
    coerce_status, status_norm, clean_optional_field, py_lower, py_strip]

/-- C5, amended.  Entries that are not dicts or lack a `description`
key are dropped; every kept entry's priority and status are first
lowercased (absent or empty values default directly), and a value whose
*lowercased* form lies outside `{high, medium, low}` (resp.
`{pending, in_progress, completed}`) is coerced to `"medium"` (resp.
`"pending"`); the results always lie in those sets. -/
theorem action_items_cleaning
    (items : List RawActionItem) :
    (∀ r ∈ items, clean_action_item r = Option.none ↔
      (r = .notDict ∨ ∃ o p d st, r = .item Option.none o p d st))
    ∧ (∀ a ∈ extract_action_items_clean items,
        (a.priority = "high" ∨ a.priority = "medium" ∨ a.priority = "low")
        ∧ (a.status = "pending" ∨ a.status = "in_progress" ∨ a.status = "completed"))
    ∧ (∀ p : Option String,
        ¬ (priority_norm p = "high" ∨ priority_norm p = "medium" ∨ priority_norm p = "low") →
        coerce_priority p = "medium")
    ∧ (∀ st : Option String,
        ¬ (status_norm st = "pending" ∨ status_norm st = "in_progress"
            ∨ status_norm st = "completed") →
        coerce_status st = "pending") := by
  refine ⟨?_, ?_, ?_, ?_⟩
  · intro r _
    cases r with
    | notDict => simp [clean_action_item]
    | item desc owner pri due st =>
        cases desc with
        | none => simp [clean_action_item]
        | some d => simp [clean_action_item]
  · intro a ha
    obtain ⟨r, _, hr⟩ := List.mem_filterMap.mp ha
    cases r with
    | notDict => cases hr
    | item desc owner pri due st =>
        cases desc with
        | none => cases hr
        | some d =>
            simp only [clean_action_item, Option.some_inj] at hr
            subst hr
            constructor
            · simp only [coerce_priority]
              by_cases h : (priority_norm pri = "high" ∨ priority_norm pri = "medium"
                  ∨ priority_norm pri = "low")
              · simp [h]
              · simp [h]
            · simp only [coerce_status]
              by_cases h : (status_norm st = "pending" ∨ status_norm st = "in_progress"
                  ∨ status_norm st = "completed")
              · simp [h]
              · simp [h]
  · intro p h
    simp [coerce_priority, h]
  · intro st h
    simp [coerce_status, h]

/-- Witness for `action_items_cleaning`: a batch with a descriptionless
entry (dropped), a non-dict entry (dropped) and an entry with an
out-of-range priority and status (coerced to the defaults). -/
theorem action_items_cleaning_witness :
    clean_action_item (.item Option.none Option.none (some "urgent") Option.none Option.none)
        = Option.none
    ∧ coerce_priority (some "urgent") = "medium"
    ∧ coerce_status (some "done") = "pending" := by
  have h := action_items_cleaning
    [RawActionItem.item Option.none Option.none (some "urgent") Option.none Option.none]
  refine ⟨?_, ?_, ?_⟩
  · exact (h.1 _ (by simp)).mpr (Or.inr ⟨Option.none, some "urgent", Option.none,
      Option.none, rfl⟩)
  · exact h.2.2.1 (some "urgent") (by
      simp [priority_norm, py_lower])
  · exact h.2.2.2 (some "done") (by
      simp [status_norm, py_lower])

/-! ### C6 -/

/-- The `end` value of one transcription segment as read by the two
duration calculators: `none` when the segment is not a dict or has no
`end` key (such segments are skipped); otherwise a numeric or
`MM:SS` / `HH:MM:SS` string timestamp. -/
abbrev SegmentEnd := Option Timestamp

/-- The maximum end time accumulated by both calculators: a fold
starting at 0 taking `max` with each present end value
(background_transcription_service.py:435-456,
mobile_audio_analytics.py:225-244). -/
def max_end_time (ends : List SegmentEnd) : ℚ :=
  ends.foldl (fun acc e => match e with
    | some t => max acc (timestamp_to_seconds t)
    | Option.none => acc) 0

/-- `BackgroundTranscriptionService._calculate_duration_from_transcription`
(background_transcription_service.py:428-467): `None` for an empty
transcription; otherwise `math.ceil(max_end_time / 60)` clamped to at
least 1 when `max_end_time > 0`, else `None`. -/
def calculate_duration_from_transcription (ends : List SegmentEnd) : Option ℤ :=
  if ends.isEmpty then Option.none
  else
    let m := max_end_time ends
    if 0 < m then some (max 1 ⌈m / 60⌉) else Option.none

/-- `MobileAudioAnalytics._calculate_duration_from_transcript`
(mobile_audio_analytics.py:219-251): `None` for an empty transcript;
otherwise `int((max_end_time / 60) + 0.5)` — round *half up to the
nearest* minute, not round up — returned only when positive, else
`None`. (`int()` truncates toward zero; the argument is ≥ 0 here, so
this is the floor.) -/
def calculate_duration_from_transcript_mobile (ends : List SegmentEnd) : Option ℤ :=
  if ends.isEmpty then Option.none
  else
    let d : ℤ := ⌊max_end_time ends / 60 + 1/2⌋
    if 0 < d then some d else Option.none

/-- C6, counterexample.  For a one-segment transcript ending at 61.0 s
the claim demands 2 minutes, but the mobile analytics calculator
returns `int(61/60 + 0.5) = 1`; and for a (non-empty) transcript whose
max end is 0.0 s the claim's 1-minute minimum demands 1, but the
background calculator returns `None`. -/
theorem duration_rounding_counterexample :
    calculate_duration_from_transcript_mobile [some (.secs 61)] = some 1
    ∧ (1 : ℤ) ≠ 2
    ∧ calculate_duration_from_transcription [some (.secs 0)] = Option.none := by
  refine ⟨?_, by decide, ?_⟩
  · simp only [calculate_duration_from_transcript_mobile, List.isEmpty_cons,
      Bool.false_eq_true, if_false, max_end_time, List.foldl, timestamp_to_seconds]
    norm_num
  · simp only [calculate_duration_from_transcription, List.isEmpty_cons,
      Bool.false_eq_true, if_false, max_end_time, List.foldl, timestamp_to_seconds]
    norm_num

/-- C6, amended.  The background service's calculator implements the
claimed rule — ceiling of the maximum end time in minutes, minimum 1 —
but only when the maximum end time is positive (returning `None` for
empty transcripts and those with max end ≤ 0, instead of the claimed
1-minute minimum), and the mobile analytics fallback instead rounds
half-up to the *nearest* minute, dropping results ≤ 0. -/
theorem duration_calculation
    (ends : List SegmentEnd) (hne : ends ≠ []) (hpos : 0 < max_end_time ends) :
    calculate_duration_from_transcription ends = some (max 1 ⌈max_end_time ends / 60⌉)
    ∧ (∀ k, calculate_duration_from_transcription ends = some k → 1 ≤ k)
    ∧ calculate_duration_from_transcript_mobile ends
        = (if 0 < ⌊max_end_time ends / 60 + 1/2⌋
            then some ⌊max_end_time ends / 60 + 1/2⌋ else Option.none) := by
  have hemp : ¬ ends.isEmpty := by simpa [List.isEmpty_iff] using hne
  refine ⟨?_, ?_, ?_⟩
  · simp [calculate_duration_from_transcription, hemp, hpos]
  · intro k hk
    have h1 : calculate_duration_from_transcription ends
        = some (max 1 ⌈max_end_time ends / 60⌉) := by
      simp [calculate_duration_from_transcription, hemp, hpos]
    rw [h1] at hk
    injection hk with hk
    rw [← hk]
    exact le_max_left (1 : ℤ) _
  · simp [calculate_duration_from_transcript_mobile, hemp]

/-- Witness for `duration_calculation`: max end 14.0 s gives 1 minute
and 61.0 s gives 2 minutes on the background calculator (the claim's
two examples), while the mobile calculator gives 1 minute for 61.0 s. -/
theorem duration_calculation_witness :
    calculate_duration_from_transcription [some (.secs 14)] = some 1
    ∧ calculate_duration_from_transcription [some (.secs 61)] = some 2
    ∧ calculate_duration_from_transcript_mobile [some (.secs 61)] = some 1 := by
  have hm14 : max_end_time [some (Timestamp.secs 14)] = 14 := by
    simp [max_end_time, timestamp_to_seconds]
  have hm61 : max_end_time [some (Timestamp.secs 61)] = 61 := by
    simp [max_end_time, timestamp_to_seconds]
  have h14 := duration_calculation [some (.secs 14)] (by simp) (by rw [hm14]; norm_num)
  have h61 := duration_calculation [some (.secs 61)] (by simp) (by rw [hm61]; norm_num)
  have hceil14 : (⌈(14 : ℚ) / 60⌉ : ℤ) = 1 := by
    rw [Int.ceil_eq_iff]; norm_num
  have hceil61 : (⌈(61 : ℚ) / 60⌉ : ℤ) = 2 := by
    rw [Int.ceil_eq_iff]; norm_num
  have hfloor61 : (⌊(61 : ℚ) / 60 + 1/2⌋ : ℤ) = 1 := by
    rw [Int.floor_eq_iff]; norm_num
  refine ⟨?_, ?_, ?_⟩
  · rw [h14.1, hm14, hceil14]
    norm_num
  · rw [h61.1, hm61, hceil61]
    norm_num
  · rw [h61.2.2, hm61, hfloor61]
    norm_num

/-! ### C7 -/

/-- `TranscriptionStatus` (api/models/meeting.py:9-14).  The spec's
QUEUED is the model's PENDING, IN_PROGRESS is PROCESSING and DONE is
COMPLETED. -/
inductive TranscriptionStatus where
  | recording
  | pending
  | processing
  | completed
  | failed
  deriving Repr, DecidableEq

/-- `AnalyticsStatus` (api/models/meeting.py:16-20). -/
inductive AnalyticsStatus where
  | pending
  | processing
  | completed
  | failed
  deriving Repr, DecidableEq

/-- The fields of a `MeetingRecord` row read and written by the
background poller (api/models/meeting.py:41-45;
`s3_audio_path` is the stored audio reference, `none` models SQL
NULL). -/
structure MeetingRecord where
  id : ℕ
  status : TranscriptionStatus
  analytics_status : AnalyticsStatus
  s3_audio_path : Option String
  deriving Repr, DecidableEq

/-- The filter of
`BackgroundTranscriptionService._get_pending_meetings`
(background_transcription_service.py:135-139): transcription status
PENDING, `s3_audio_path IS NOT NULL` and `s3_audio_path != ""`. -/
def pending_filter (m : MeetingRecord) : Bool :=
  decide (m.status = .pending) && decide (m.s3_audio_path ≠ Option.none)
    && decide (m.s3_audio_path ≠ some "")

/-- The poller's per-tick selection: all rows matching
`pending_filter`. -/
def get_pending_meetings (db : List MeetingRecord) : List MeetingRecord :=
  db.filter pending_filter

/-- One poller tick acting on a single record: `_process_meeting` is
invoked only for selected records, and (whatever transcription and
analytics do — modelled by the arbitrary `outcome` function, covering
PROCESSING, COMPLETED and FAILED updates) only updates the statuses of
the meeting it was given.  Unselected records are untouched. -/
def process_pending_step
    (outcome : MeetingRecord → TranscriptionStatus × AnalyticsStatus)
    (m : MeetingRecord) : MeetingRecord :=
  if pending_filter m then
    { m with status := (outcome m).1, analytics_status := (outcome m).2 }
  else m

/-- One full poller tick over the record store
(`_worker_loop` lines 92-107: query then process each selected
meeting). -/
def poll_tick (outcome : MeetingRecord → TranscriptionStatus × AnalyticsStatus)
    (db : List MeetingRecord) : List MeetingRecord :=
  db.map (process_pending_step outcome)

/-- C7, confirmed.  A recording whose audio location is unset (`NULL`
or the empty string) is never selected by the poller query and is left
completely unchanged by any poller tick — in particular it never
leaves the QUEUED (PENDING) state via poller processing, whatever the
processing outcome would be. -/
theorem unset_audio_never_processed
    (m : MeetingRecord)
    (h : m.s3_audio_path = Option.none ∨ m.s3_audio_path = some "") :
    (∀ db : List MeetingRecord, m ∉ get_pending_meetings db)
    ∧ (∀ outcome, process_pending_step outcome m = m)
    ∧ (∀ outcome db, poll_tick outcome db
        = db.map (process_pending_step outcome)) := by
  have hfilter : pending_filter m = false := by
    rcases h with h | h <;> simp [pending_filter, h]
  refine ⟨?_, ?_, fun _ _ => rfl⟩
  · intro db hmem
    have := List.of_mem_filter hmem
    rw [hfilter] at this
    cases this
  · intro outcome
    simp [process_pending_step, hfilter]

/-- Witness for `unset_audio_never_processed`: a QUEUED record with
`s3_audio_path = None` stays QUEUED across a tick that would complete
any selected meeting. -/
theorem unset_audio_never_processed_witness :
    (process_pending_step (fun _ => (.completed, .completed))
        ⟨7, .pending, .pending, Option.none⟩).status = .pending := by
  have h := unset_audio_never_processed ⟨7, .pending, .pending, Option.none⟩
    (Or.inl rfl)
  rw [h.2.1 (fun _ => (.completed, .completed))]

/-! ### C8 -/

/-- The filesystem/collaborator state observed by
`finalize_meeting_recording` (meeting_service.py:657-776) and
`AudioProcessor.stitch_audio_chunks_v3` (audio_service.py:953-1062)
for one recording id: whether the durable merged files
`temp_audio/meeting_{id}.wav` / `.webm` exist, and whether the
per-source stream files `mic_recording.webm` / `tab_recording.webm`
are present in the chunk directory. -/
structure FinalizeFs where
  wav_exists : Bool
  webm_exists : Bool
  mic_exists : Bool
  tab_exists : Bool
  deriving Repr, DecidableEq

/-- Deterministic behaviour of the collaborators during a finalize
call: whether the S3 upload succeeds, and whether the pydub/ffmpeg
mixing path works (when it fails, `stitch_audio_chunks_v3` falls back
to copying the raw mic stream). -/
structure FinalizeEnv where
  upload_ok : Bool
  mix_ok : Bool
  deriving Repr, DecidableEq

def wav_path (id : String) : String := "temp_audio/meeting_" ++ id ++ ".wav"

def webm_path (id : String) : String := "temp_audio/meeting_" ++ id ++ ".webm"

/-- `S3Service.upload_audio_file` key (s3_service.py:58): a
deterministic function of the audio prefix and the meeting id. -/
def s3_key (prefix_ : String) (id : String) : String :=
  prefix_ ++ id ++ "/" ++ id ++ ".mp3"

/-- `AudioProcessor.stitch_audio_chunks_v3`: `none` when no stream
file exists; on the mixing path exports `meeting_{id}.wav`; on the
ffmpeg-less fallback copies the mic stream to `meeting_{id}.webm`
(only possible when a mic stream exists).  Returns the produced path
and the filesystem state after the export. -/
def stitch_audio_chunks_v3 (id : String) (env : FinalizeEnv) (fs : FinalizeFs) :
    Option (String × FinalizeFs) :=
  if ¬ fs.mic_exists ∧ ¬ fs.tab_exists then Option.none
  else if env.mix_ok then
    some (wav_path id, { fs with wav_exists := true })
  else if fs.mic_exists then
    some (webm_path id, { fs with webm_exists := true })
  else Option.none

/-- The audio-relevant result of one `finalize_meeting_recording`
call: the stored audio reference (S3 key, or the local path when the
upload failed), how many times the stitcher ran during the call, and
the filesystem state afterwards. -/
structure FinalizeResult where
  audio_ref : Option String
  stitch_calls : ℕ
  status_set_pending : Bool
  fs : FinalizeFs
  deriving Repr, DecidableEq

/-- `finalize_meeting_recording` (meeting_service.py:657-776),
audio-path logic: if `meeting_{id}.wav` or `meeting_{id}.webm` already
exists the stitch is skipped entirely (lines 679-689); otherwise
`stitch_audio_chunks_v3` runs once.  With a final audio path in hand,
the S3 upload is attempted; on failure the local path is kept
(lines 700-712); then status is flipped to PENDING (713-718).  With no
audio at all the function returns `None` without touching status. -/
def finalize_meeting_recording (prefix_ id : String) (env : FinalizeEnv)
    (fs : FinalizeFs) : FinalizeResult :=
  if fs.wav_exists then
    { audio_ref := some (if env.upload_ok then s3_key prefix_ id else wav_path id)
      stitch_calls := 0, status_set_pending := true, fs := fs }
  else if fs.webm_exists then
    { audio_ref := some (if env.upload_ok then s3_key prefix_ id else webm_path id)
      stitch_calls := 0, status_set_pending := true, fs := fs }
  else
    match stitch_audio_chunks_v3 id env fs with
    | Option.none =>
        { audio_ref := Option.none, stitch_calls := 1
          status_set_pending := false, fs := fs }
    | some (p, fs') =>
        { audio_ref := some (if env.upload_ok then s3_key prefix_ id else p)
          stitch_calls := 1, status_set_pending := true, fs := fs' }

/-- C8, confirmed.  When a durable merged file already exists for the
recording id, two consecutive finalize calls (under the same
collaborator behaviour) perform zero stitches and produce the same,
present audio reference. -/
theorem finalize_idempotent (prefix_ id : String) (env : FinalizeEnv)
    (fs : FinalizeFs) (h : fs.wav_exists = true ∨ fs.webm_exists = true) :
    (finalize_meeting_recording prefix_ id env fs).stitch_calls = 0
    ∧ (finalize_meeting_recording prefix_ id env
        (finalize_meeting_recording prefix_ id env fs).fs).stitch_calls = 0
    ∧ (finalize_meeting_recording prefix_ id env
        (finalize_meeting_recording prefix_ id env fs).fs).audio_ref
      = (finalize_meeting_recording prefix_ id env fs).audio_ref
    ∧ (finalize_meeting_recording prefix_ id env fs).audio_ref ≠ Option.none := by
  rcases h with h | h
  · simp [finalize_meeting_recording, h]
  · by_cases hw : fs.wav_exists
    · simp [finalize_meeting_recording, hw]
    · simp [finalize_meeting_recording, hw, h]

/-- Witness for `finalize_idempotent`: a state where the merged WAV
already exists and the upload succeeds. -/
theorem finalize_idempotent_witness :
    (finalize_meeting_recording "audio/" "m1" ⟨true, true⟩
        ⟨true, false, false, false⟩).stitch_calls = 0
    ∧ (finalize_meeting_recording "audio/" "m1" ⟨true, true⟩
        (finalize_meeting_recording "audio/" "m1" ⟨true, true⟩
          ⟨true, false, false, false⟩).fs).audio_ref
      = (finalize_meeting_recording "audio/" "m1" ⟨true, true⟩
          ⟨true, false, false, false⟩).audio_ref := by
  have h := finalize_idempotent "audio/" "m1" ⟨true, true⟩
    ⟨true, false, false, false⟩ (Or.inl rfl)
  exact ⟨h.1, h.2.2.1⟩

/-! ### C9 -/

/-- Python dict item assignment `d[k] = v`: replaces the value at an
existing key in place (insertion order kept), appends the pair when
the key is new. -/
def dict_set (d : PyDict) (k : String) (v : PyLite) : PyDict :=
  if (d.lookup k).isSome then
    d.map (fun kv => if kv.1 = k then (k, v) else kv)
  else d ++ [(k, v)]

/-- Replacing the value at key `k` in place leaves lookups of other
keys unchanged. -/
lemma lookup_map_replace (d : PyDict) {k k' : String} (v : PyLite) (h : k' ≠ k) :
    (d.map (fun kv => if kv.1 = k then (k, v) else kv)).lookup k' = d.lookup k' := by
  induction d with
  | nil => rfl
  | cons kv rest ih =>
      by_cases hk : kv.1 = k
      · have h1 : (k' == k) = false := beq_eq_false_iff_ne.mpr h
        have h2 : (k' == kv.1) = false := beq_eq_false_iff_ne.mpr (by rw [hk]; exact h)
        rw [List.map_cons, if_pos hk, List.lookup_cons, List.lookup_cons, h1, h2]
        exact ih
      · rw [List.map_cons, if_neg hk, List.lookup_cons, List.lookup_cons]
        cases hbeq : (k' == kv.1) with
        | true => rfl
        | false => exact ih

/-- Replacing the value at a present key `k` in place makes `k` look
up the new value. -/
lemma lookup_map_replace_self (d : PyDict) {k : String} (v : PyLite)
    (hs : (d.lookup k).isSome) :
    (d.map (fun kv => if kv.1 = k then (k, v) else kv)).lookup k = some v := by
  induction d with
  | nil => simp at hs
  | cons kv rest ih =>
      by_cases hk : kv.1 = k
      · have h1 : (k == k) = true := beq_self_eq_true k
        rw [List.map_cons, if_pos hk, List.lookup_cons, h1]
      · have hbeq : (k == kv.1) = false :=
          beq_eq_false_iff_ne.mpr (fun hkk => hk hkk.symm)
        rw [List.map_cons, if_neg hk, List.lookup_cons, hbeq]
        apply ih
        rw [List.lookup_cons, hbeq] at hs
        exact hs

/-- `dict_set` leaves every other key's value unchanged. -/
lemma lookup_dict_set_ne (d : PyDict) {k k' : String} (v : PyLite) (h : k' ≠ k) :
    (dict_set d k v).lookup k' = d.lookup k' := by
  unfold dict_set
  by_cases hs : (d.lookup k).isSome
  · rw [if_pos hs]
    exact lookup_map_replace d v h
  · rw [if_neg hs]
    rw [List.lookup_append]
    have hsingle : ([(k, v)] : PyDict).lookup k' = Option.none := by
      rw [List.lookup_cons, beq_eq_false_iff_ne.mpr h]
      rfl
    rw [hsingle, Option.or_none]

/-- `dict_set` makes the assigned key's value the assigned value. -/
lemma lookup_dict_set_self (d : PyDict) (k : String) (v : PyLite) :
    (dict_set d k v).lookup k = some v := by
  unfold dict_set
  by_cases hs : (d.lookup k).isSome
  · rw [if_pos hs]
    exact lookup_map_replace_self d v hs
  · rw [if_neg hs]
    rw [List.lookup_append]
    rw [Option.not_isSome_iff_eq_none] at hs
    rw [hs, Option.none_or]
    simp [List.lookup]

/-- One segment of a transcription list as handled by
`AudioProcessor._apply_speaker_name_mapping`: either a dict, or any
other value (appended to the output unchanged,
audio_service.py:293-295). -/
inductive PySeg where
  | dict (d : PyDict)
  | other (v : PyLite)
  deriving Repr, DecidableEq

/-- `AudioProcessor._apply_speaker_name_mapping`
(audio_service.py:277-306).  With an empty mapping the input list is
returned as-is.  Otherwise, per dict segment: `speaker =
segment.get('speaker', '')` and, when that value is a key of the
(string-keyed) mapping, `segment.copy()` with the mapped name written
to `speaker`; a present non-string speaker value can never equal a
string key, so it never matches. -/
def apply_speaker_name_mapping (transcription : List PySeg)
    (speaker_mapping : List (String × String)) : List PySeg :=
  if speaker_mapping.isEmpty then transcription
  else transcription.map (fun seg =>
    match seg with
    | .other v => .other v
    | .dict d =>
        let speakerKey : Option String :=
          match d.lookup "speaker" with
          | some (.str v) => some v
          | some _ => Option.none
          | Option.none => some ""
        match speakerKey.bind (fun s => speaker_mapping.lookup s) with
        | some name => .dict (dict_set d "speaker" (.str name))
        | Option.none => .dict d)

/-- Field access on a segment (the value of key `k` when the segment
is a dict). -/
def seg_lookup : PySeg → String → Option PyLite
  | .dict d, k => d.lookup k
  | .other _, _ => Option.none

/-- Frame relation between an input segment and its output: every
field other than `speaker` (in particular `start`, `end` and `text`)
has the same value, dict segments stay dicts, and non-dict segments
are unchanged. -/
def preserves_except_speaker (a b : PySeg) : Prop :=
  (∀ k, k ≠ "speaker" → seg_lookup b k = seg_lookup a k)
  ∧ (∀ v, a = .other v → b = .other v)
  ∧ (∀ d, a = .dict d → ∃ d', b = .dict d')

lemma preserves_except_speaker_refl (a : PySeg) : preserves_except_speaker a a :=
  ⟨fun _ _ => rfl, fun _ h => h, fun d h => ⟨d, h⟩⟩

/-- C9, confirmed.  Applying a speaker-name mapping yields a list of
the same length in the same order, where each segment is unchanged in
every field except possibly `speaker` (`start`, `end` and `text` are
preserved) and non-dict segments are untouched. -/
theorem speaker_mapping_frame (transcription : List PySeg)
    (speaker_mapping : List (String × String)) :
    List.Forall₂ preserves_except_speaker transcription
      (apply_speaker_name_mapping transcription speaker_mapping)
    ∧ (apply_speaker_name_mapping transcription speaker_mapping).length
      = transcription.length := by
  have hstep : ∀ seg : PySeg, preserves_except_speaker seg
      (match seg with
      | .other v => .other v
      | .dict d =>
          let speakerKey : Option String :=
            match d.lookup "speaker" with
            | some (.str v) => some v
            | some _ => Option.none
            | Option.none => some ""
          match speakerKey.bind (fun s => speaker_mapping.lookup s) with
          | some name => .dict (dict_set d "speaker" (.str name))
          | Option.none => .dict d) := by
    intro seg
    cases seg with
    | other v => exact preserves_except_speaker_refl _
    | dict d =>
        simp only
        cases hb : ((match d.lookup "speaker" with
            | some (.str v) => some v
            | some _ => Option.none
            | Option.none => some "") : Option String).bind
            (fun s => speaker_mapping.lookup s) with
        | none => exact preserves_except_speaker_refl _
        | some name =>
            refine ⟨?_, ?_, ?_⟩
            · intro k hk
              simp only [seg_lookup]
              exact lookup_dict_set_ne d (.str name) hk
            · intro v h
              cases h
            · intro d' h
              exact ⟨dict_set d "speaker" (.str name), rfl⟩
  unfold apply_speaker_name_mapping
  by_cases hempty : speaker_mapping.isEmpty = true
  · rw [if_pos hempty]
    exact ⟨List.forall₂_same.mpr (fun x _ => preserves_except_speaker_refl x), rfl⟩
  · rw [if_neg hempty]
    constructor
    · rw [List.forall₂_map_right_iff]
      exact List.forall₂_same.mpr (fun x _ => hstep x)
    · rw [List.length_map]

/-- Witness for `speaker_mapping_frame` at a concrete two-segment
transcript and a one-entry mapping. -/
theorem speaker_mapping_frame_witness :
    (apply_speaker_name_mapping
      [PySeg.dict [("start", .num 0), ("end", .num 1), ("text", .str "hi"),
        ("speaker", .str "speaker1")], PySeg.other (.str "x")]
      [("speaker1", "Alice")]).length = 2 :=
  (speaker_mapping_frame
    [PySeg.dict [("start", .num 0), ("end", .num 1), ("text", .str "hi"),
      ("speaker", .str "speaker1")], PySeg.other (.str "x")]
    [("speaker1", "Alice")]).2

/-! ### C10 -/

/-- Characters removed from text/speaker values by
`safe_extract_json` (audio_service.py:537-539, 552-553): NUL and the
control range `\x01-\x08`, `\x0b`, `\x0c`, `\x0e-\x1f` (keeping tab,
newline, carriage return). -/
def is_bad_ctrl (c : Char) : Bool :=
  c.val ≤ 0x08 || c.val == 0x0b || c.val == 0x0c
    || (0x0e ≤ c.val && c.val ≤ 0x1f)

def remove_ctrl (s : String) : String :=
  String.mk (s.data.filter (fun c => !is_bad_ctrl c))

/-- Python truthiness of a value (`if item["text"]:`). -/
def py_truthy : PyLite → Bool
  | .str v => v ≠ ""
  | .num v => v ≠ 0
  | .boolean b => b
  | .pynone => false

/-- Python `str()` of a value.  (The textual rendering of non-string
payloads is abstract; the cleaning below only inspects the characters
of the result, and the claims never look at these values.) -/
def py_str : PyLite → String
  | .str v => v
  | .num v => toString v
  | .boolean b => if b then "True" else "False"
  | .pynone => "None"

/-- The text-cleaning step for a present, truthy `text` value
(audio_service.py:534-543): stringify, strip control characters, trim;
keep the trimmed result when non-empty, the original value
otherwise. -/
def clean_text_value (v : PyLite) : PyLite :=
  if py_truthy v then
    let text := remove_ctrl (py_str v)
    let cleaned := py_strip text
    if cleaned ≠ "" ∨ py_strip text = "" then
      (if cleaned ≠ "" then .str cleaned else v)
    else v
  else v

/-- The speaker-cleaning step for a present, truthy `speaker` value
(audio_service.py:550-554). -/
def clean_speaker_value (v : PyLite) : PyLite :=
  if py_truthy v then
    let sp := remove_ctrl (py_str v)
    if py_strip sp ≠ "" then .str (py_strip sp) else v
  else v

/-- One entry of the JSON array parsed by `safe_extract_json`:
non-dict entries are skipped with a warning (audio_service.py:517-519). -/
inductive JItem where
  | notDict (v : PyLite)
  | dict (d : PyDict)
  deriving Repr, DecidableEq

/-- `item["text"] = item["Text"]` when `Text` is present and `text`
absent (audio_service.py:527-528). -/
def normalize_text_key (d : PyDict) : PyDict :=
  if (d.lookup "Text").isSome ∧ (d.lookup "text").isNone then
    dict_set d "text" ((d.lookup "Text").getD .pynone)
  else d

/-- The guarded text-cleaning mutation (audio_service.py:534-543). -/
def clean_text_step (d : PyDict) : PyDict :=
  match d.lookup "text" with
  | some v => dict_set d "text" (clean_text_value v)
  | Option.none => d

/-- `if "speaker" not in item: item["speaker"] = "speaker1"`
(audio_service.py:546-547). -/
def ensure_speaker (d : PyDict) : PyDict :=
  if (d.lookup "speaker").isNone then dict_set d "speaker" (.str "speaker1")
  else d

/-- The guarded speaker-cleaning mutation (audio_service.py:550-554). -/
def clean_speaker_step (d : PyDict) : PyDict :=
  match d.lookup "speaker" with
  | some v => dict_set d "speaker" (clean_speaker_value v)
  | Option.none => d

/-- The per-item validation/cleaning loop of
`AudioProcessor.safe_extract_json` (audio_service.py:515-556):
non-dicts and items without both `start` and `end` keys are skipped;
`Text` is renamed to `text` when `text` is absent, otherwise a missing
`text` key skips the item; the `text` value is cleaned; a missing
`speaker` key is filled with `"speaker1"`; the `speaker` value is
cleaned. -/
def clean_segment_item : JItem → Option PyDict
  | .notDict _ => Option.none
  | .dict d =>
      if ¬ ((d.lookup "start").isSome ∧ (d.lookup "end").isSome) then Option.none
      else if ((normalize_text_key d).lookup "text").isNone then Option.none
      else some (clean_speaker_step (ensure_speaker (clean_text_step
        (normalize_text_key d))))

/-- The validation stage of `AudioProcessor.safe_extract_json`
(audio_service.py:511-561): clean every parsed item; when nothing
survives, raise `ValueError("No valid segments found in JSON
response")` instead of returning an empty list. -/
def safe_extract_json_validate (items : List JItem) : Except String (List PyDict) :=
  let cleaned := items.filterMap clean_segment_item
  if cleaned.isEmpty then .error "No valid segments found in JSON response"
  else .ok cleaned

lemma normalize_text_key_lookup_ne (d : PyDict) {k : String} (h : k ≠ "text") :
    (normalize_text_key d).lookup k = d.lookup k := by
  unfold normalize_text_key
  by_cases hc : ((d.lookup "Text").isSome ∧ (d.lookup "text").isNone)
  · rw [if_pos hc]
    exact lookup_dict_set_ne d _ h
  · rw [if_neg hc]

lemma clean_text_step_lookup_ne (d : PyDict) {k : String} (h : k ≠ "text") :
    (clean_text_step d).lookup k = d.lookup k := by
  unfold clean_text_step
  cases hv : d.lookup "text" with
  | none => rfl
  | some v => exact lookup_dict_set_ne d _ h

lemma clean_text_step_text_isSome (d : PyDict) (h : (d.lookup "text").isSome) :
    ((clean_text_step d).lookup "text").isSome := by
  unfold clean_text_step
  cases hv : d.lookup "text" with
  | none => rw [hv] at h; cases h
  | some v => rw [lookup_dict_set_self]; rfl

lemma ensure_speaker_lookup_ne (d : PyDict) {k : String} (h : k ≠ "speaker") :
    (ensure_speaker d).lookup k = d.lookup k := by
  unfold ensure_speaker
  by_cases hc : (d.lookup "speaker").isNone
  · rw [if_pos hc]
    exact lookup_dict_set_ne d _ h
  · rw [if_neg hc]

lemma ensure_speaker_speaker_isSome (d : PyDict) :
    ((ensure_speaker d).lookup "speaker").isSome := by
  unfold ensure_speaker
  by_cases hc : (d.lookup "speaker").isNone
  · rw [if_pos hc, lookup_dict_set_self]
    rfl
  · rw [if_neg hc]
    cases hv : d.lookup "speaker" with
    | none => exact absurd (by rw [hv]; rfl) hc
    | some v => rfl

lemma clean_speaker_step_lookup_ne (d : PyDict) {k : String} (h : k ≠ "speaker") :
    (clean_speaker_step d).lookup k = d.lookup k := by
  unfold clean_speaker_step
  cases hv : d.lookup "speaker" with
  | none => rfl
  | some v => exact lookup_dict_set_ne d _ h

lemma clean_speaker_step_speaker (d : PyDict) {v : PyLite}
    (h : d.lookup "speaker" = some v) :
    (clean_speaker_step d).lookup "speaker" = some (clean_speaker_value v) := by
  unfold clean_speaker_step
  rw [h, lookup_dict_set_self]

/-- The cleaned form of a kept item keeps `start`/`end` untouched and
always carries present `text` and `speaker` keys; an item without a
`speaker` key gets the (cleaned) default label `"speaker1"`. -/
lemma clean_segment_item_spec {d d' : PyDict}
    (h : clean_segment_item (.dict d) = some d') :
    d'.lookup "start" = d.lookup "start"
    ∧ d'.lookup "end" = d.lookup "end"
    ∧ (d.lookup "start").isSome ∧ (d.lookup "end").isSome
    ∧ (d'.lookup "text").isSome
    ∧ (d'.lookup "speaker").isSome
    ∧ (d.lookup "speaker" = Option.none →
        d'.lookup "speaker" = some (clean_speaker_value (.str "speaker1"))) := by
  simp only [clean_segment_item] at h
  by_cases hse : ((d.lookup "start").isSome ∧ (d.lookup "end").isSome)
  · rw [if_neg (not_not_intro hse)] at h
    by_cases htext : ((normalize_text_key d).lookup "text").isNone
    · rw [if_pos htext] at h
      cases h
    · rw [if_neg htext] at h
      injection h with h
      subst h
      have hstart : ∀ k, k ≠ "text" → k ≠ "speaker" →
          (clean_speaker_step (ensure_speaker (clean_text_step
            (normalize_text_key d)))).lookup k = d.lookup k := by
        intro k hkt hks
        rw [clean_speaker_step_lookup_ne _ hks, ensure_speaker_lookup_ne _ hks,
          clean_text_step_lookup_ne _ hkt, normalize_text_key_lookup_ne _ hkt]
      refine ⟨hstart "start" (by decide) (by decide),
        hstart "end" (by decide) (by decide), hse.1, hse.2, ?_, ?_, ?_⟩
      · rw [clean_speaker_step_lookup_ne _ (by decide),
          ensure_speaker_lookup_ne _ (by decide)]
        apply clean_text_step_text_isSome
        cases hv : (normalize_text_key d).lookup "text" with
        | none => exact absurd (by rw [hv]; rfl) htext
        | some v => rfl
      · cases hv : (ensure_speaker (clean_text_step
            (normalize_text_key d))).lookup "speaker" with
        | none =>
            have := ensure_speaker_speaker_isSome (clean_text_step (normalize_text_key d))
            rw [hv] at this
            cases this
        | some v =>
            rw [clean_speaker_step_speaker _ hv]
            rfl
      · intro hnone
        have hv : (ensure_speaker (clean_text_step
            (normalize_text_key d))).lookup "speaker" = some (.str "speaker1") := by
          unfold ensure_speaker
          have h0 : (clean_text_step (normalize_text_key d)).lookup "speaker"
              = Option.none := by
            rw [clean_text_step_lookup_ne _ (by decide),
              normalize_text_key_lookup_ne _ (by decide), hnone]
          rw [if_pos (by rw [h0]; rfl), lookup_dict_set_self]
        rw [clean_speaker_step_speaker _ hv]
  · rw [if_pos hse] at h
    cases h

/-- C10, confirmed.  Every segment surviving the JSON-extraction step
carries the keys `start`, `end`, `text` and `speaker`; an item whose
model output lacked a `speaker` key ends up with the default label
`"speaker1"`; and when no parsed item qualifies the step raises
`ValueError` instead of returning an empty list. -/
theorem extracted_segments_well_formed (items : List JItem) :
    (∀ l, safe_extract_json_validate items = .ok l →
      l ≠ [] ∧ ∀ d ∈ l,
        (d.lookup "start").isSome ∧ (d.lookup "end").isSome
        ∧ (d.lookup "text").isSome ∧ (d.lookup "speaker").isSome)
    ∧ (∀ d d', clean_segment_item (.dict d) = some d' →
        d.lookup "speaker" = Option.none →
        d'.lookup "speaker" = some (.str "speaker1"))
    ∧ (items.filterMap clean_segment_item = [] →
        safe_extract_json_validate items
          = .error "No valid segments found in JSON response") := by
  refine ⟨?_, ?_, ?_⟩
  · intro l hl
    unfold safe_extract_json_validate at hl
    by_cases hemp : (items.filterMap clean_segment_item).isEmpty
    · rw [if_pos hemp] at hl
      cases hl
    · rw [if_neg hemp] at hl
      injection hl with hl
      subst hl
      constructor
      · intro hh
        rw [hh] at hemp
        exact hemp rfl
      · intro d hd
        obtain ⟨j, _, hj⟩ := List.mem_filterMap.mp hd
        cases j with
        | notDict v => cases hj
        | dict d0 =>
            obtain ⟨h1, h2, h3, h4, h5, h6, _⟩ := clean_segment_item_spec hj
            exact ⟨by rw [h1]; exact h3, by rw [h2]; exact h4, h5, h6⟩
  · intro d d' hclean hnone
    have h := (clean_segment_item_spec hclean).2.2.2.2.2.2 hnone
    rw [h]
    rfl
  · intro hnil
    unfold safe_extract_json_validate
    rw [if_pos (by rw [hnil]; rfl)]

/-- Witness for `extracted_segments_well_formed`: a two-item response
whose first entry is not a dict and whose second lacks a `speaker` key
yields exactly one segment, with the default speaker label; an
all-invalid response errors. -/
theorem extracted_segments_well_formed_witness :
    (∃ l, safe_extract_json_validate
        [JItem.notDict (.str "oops"),
         JItem.dict [("start", .num 0), ("end", .num 2), ("text", .str "hi")]]
        = .ok l ∧ l ≠ [])
    ∧ clean_segment_item (JItem.dict
        [("start", .num 0), ("end", .num 2), ("text", .str "hi")])
      = some [("start", .num 0), ("end", .num 2), ("text", .str "hi"),
              ("speaker", .str "speaker1")]
    ∧ safe_extract_json_validate [JItem.notDict (.str "oops")]
      = .error "No valid segments found in JSON response" := by
  have hclean : clean_segment_item (JItem.dict
      [("start", .num 0), ("end", .num 2), ("text", .str "hi")])
      = some [("start", .num 0), ("end", .num 2), ("text", .str "hi"),
              ("speaker", .str "speaker1")] := by decide
  have hfm : ([JItem.notDict (.str "oops"),
      JItem.dict [("start", .num 0), ("end", .num 2),
        ("text", .str "hi")]].filterMap clean_segment_item)
      = [[("start", .num 0), ("end", .num 2), ("text", .str "hi"),
          ("speaker", .str "speaker1")]] := by decide
  have hok : safe_extract_json_validate
      [JItem.notDict (.str "oops"),
       JItem.dict [("start", .num 0), ("end", .num 2), ("text", .str "hi")]]
      = .ok [[("start", .num 0), ("end", .num 2), ("text", .str "hi"),
          ("speaker", .str "speaker1")]] := by
    unfold safe_extract_json_validate
    rw [hfm]
    rfl
  have h := extracted_segments_well_formed
    [JItem.notDict (.str "oops"),
     JItem.dict [("start", .num 0), ("end", .num 2), ("text", .str "hi")]]
  refine ⟨⟨_, hok, (h.1 _ hok).1⟩, hclean, ?_⟩
  exact (extracted_segments_well_formed [JItem.notDict (.str "oops")]).2.2 (by decide)

end MemoApp
